import Mathlib

/-!
Verification of the milestone agent (`smartsheet_past_due_agent_wide.py`).

The development shallowly embeds the core of the script: Python/JSON values,
`datetime.fromisoformat`-style date parsing, the column-map construction,
milestone-schema detection, the past-due evaluator and the summary formatter.
Machine integers are modelled as `Int`/`Nat` (Python integers are unbounded,
so no wrap-around is involved), fallible operations return `Option`/`Except`,
and Python's raising `RuntimeError` is modelled with `Except.error`.
-/

/-- A Python/JSON value as it occurs in the sheet payload: `null`, a string,
an integer, or a boolean.  `PyVal.none` is Python's `None`. -/
inductive PyVal where
  | none
  | str (s : String)
  | int (n : Int)
  | bool (b : Bool)
deriving DecidableEq, Repr

/-- Python truthiness (`bool(v)`) restricted to the modelled values:
`None`, `""`, `0` and `False` are falsy. -/
def pyTruthy : PyVal → Bool
  | .none => false
  | .str s => !s.data.isEmpty
  | .int n => n != 0
  | .bool b => b

/-- Python `str(v)` on the modelled values. -/
def pyStr : PyVal → String
  | .none => "None"
  | .str s => s
  | .int n => toString n
  | .bool b => if b then "True" else "False"

/-- The whitespace characters stripped by Python's `str.strip()` (ASCII part;
the script only ever strips column titles and report text, which are ASCII). -/
def pyIsSpace (c : Char) : Bool :=
  c = ' ' || c = '\t' || c = '\n' || c = '\r' || c = '\x0b' || c = '\x0c'

/-- Remove trailing whitespace from a character list (Python `str.rstrip()`). -/
def pyRstripL (l : List Char) : List Char :=
  (l.reverse.dropWhile pyIsSpace).reverse

/-- Remove leading and trailing whitespace (Python `str.strip()`). -/
def pyStripL (l : List Char) : List Char :=
  pyRstripL (l.dropWhile pyIsSpace)

/-- Python `str.strip()`. -/
def pyStrip (s : String) : String :=
  ⟨pyStripL s.data⟩

/-- Python `str.lower()`; the modelled inputs are ASCII, where `lower`
coincides with `Char.toLower`. -/
def pyLower (s : String) : String :=
  ⟨s.data.map Char.toLower⟩

/-- A calendar date as produced by `datetime.date`. -/
structure PyDate where
  year : Nat
  month : Nat
  day : Nat
deriving DecidableEq, Repr

/-- Gregorian leap-year rule (`calendar.isleap`). -/
def isLeap (y : Nat) : Bool :=
  y % 4 == 0 && (y % 100 != 0 || y % 400 == 0)

/-- Number of days in a month of a given year. -/
def daysInMonth (y m : Nat) : Nat :=
  if m = 2 then (if isLeap y then 29 else 28)
  else if m = 4 || m = 6 || m = 9 || m = 11 then 30
  else 31

/-- A `PyDate` that `datetime.date` would accept (year 1..9999). -/
def validDate (d : PyDate) : Prop :=
  1 ≤ d.year ∧ d.year ≤ 9999 ∧ 1 ≤ d.month ∧ d.month ≤ 12 ∧
    1 ≤ d.day ∧ d.day ≤ daysInMonth d.year d.month

instance (d : PyDate) : Decidable (validDate d) := by
  unfold validDate; infer_instance

/-- Day number of a date in the proleptic Gregorian calendar (days since
0000-03-01, the standard civil-days computation).  Differences of this
function agree with differences of Python's `date.toordinal`, and on valid
dates its order coincides with CPython's field-by-field date comparison. -/
def dateOrdinal (dt : PyDate) : Nat :=
  let y := if dt.month ≤ 2 then dt.year - 1 else dt.year
  let era := y / 400
  let yoe := y % 400
  let mp := if dt.month ≤ 2 then dt.month + 9 else dt.month - 3
  let doy := (153 * mp + 2) / 5 + dt.day - 1
  let doe := yoe * 365 + yoe / 4 - yoe / 100 + doy
  era * 146097 + doe

/-- The comparison `d1 < d2` on `datetime.date` values (CPython compares the
date fields lexicographically, which on valid dates is the ordinal order). -/
def dateLt (d1 d2 : PyDate) : Bool :=
  dateOrdinal d1 < dateOrdinal d2

/-- `(d1 - d2).days` for `datetime.date` values. -/
def dateDiffDays (d1 d2 : PyDate) : Int :=
  (dateOrdinal d1 : Int) - (dateOrdinal d2 : Int)

/-- Left-pad the decimal representation of `n` with zeros to width `w`. -/
def padNat (w n : Nat) : String :=
  let s := toString n
  ⟨List.replicate (w - s.length) '0'⟩ ++ s

/-- `date.isoformat()`: `YYYY-MM-DD`. -/
def isoformat (d : PyDate) : String :=
  padNat 4 d.year ++ "-" ++ padNat 2 d.month ++ "-" ++ padNat 2 d.day

/-- ASCII digit test (`'0' <= c <= '9'`). -/
def isDig (c : Char) : Bool := 48 ≤ c.toNat && c.toNat ≤ 57

/-- Numeric value of an ASCII digit. -/
def digitVal (c : Char) : Nat := c.toNat - 48

/-- Value of a list of ASCII digits read in base 10 (Python `int(...)` on an
all-digit string). -/
def natFromDigits (cs : List Char) : Nat :=
  cs.foldl (fun a c => 10 * a + digitVal c) 0

/-- Read exactly two ASCII digits from the front of a character list. -/
def twoDigits? : List Char → Option (Nat × List Char)
  | a :: b :: rest =>
    if isDig a && isDig b then some (10 * digitVal a + digitVal b, rest)
    else Option.none
  | _ => Option.none

/-- The microsecond component accepted by CPython's `_parse_hh_mm_ss_ff`:
exactly 3 or 6 ASCII digits after the dot. -/
def fracVal (cs : List Char) : Option Nat :=
  if cs.all isDig then
    if cs.length = 3 then some (1000 * natFromDigits cs)
    else if cs.length = 6 then some (natFromDigits cs)
    else Option.none
  else Option.none

/-- CPython 3.10 `_parse_hh_mm_ss_ff`: `HH[:MM[:SS[.fff[fff]]]]`, each field
exactly two digits (the accelerated C parser requires ASCII digits). -/
def parse_hh_mm_ss_ff (tstr : List Char) : Option (Nat × Nat × Nat × Nat) :=
  match twoDigits? tstr with
  | Option.none => Option.none
  | some (h, r1) =>
    match r1 with
    | [] => some (h, 0, 0, 0)
    | ':' :: r2 =>
      match twoDigits? r2 with
      | Option.none => Option.none
      | some (m, r3) =>
        match r3 with
        | [] => some (h, m, 0, 0)
        | ':' :: r4 =>
          match twoDigits? r4 with
          | Option.none => Option.none
          | some (s, r5) =>
            match r5 with
            | [] => some (h, m, s, 0)
            | '.' :: r6 => (fracVal r6).map (fun f => (h, m, s, f))
            | _ => Option.none
        | _ => Option.none
    | _ => Option.none

/-- Split a character list at the first occurrence of `c`, dropping it. -/
def splitAtFirst (c : Char) (cs : List Char) : Option (List Char × List Char) :=
  match cs.findIdx? (· = c) with
  | some i => some (cs.take i, cs.drop (i + 1))
  | Option.none => Option.none

/-- CPython 3.10 `_parse_isoformat_time`, reduced to validity: the time string
(with an optional UTC offset, split at the first `-`, else the first `+`)
parses, the time fields are in range, the offset string has length 5, 8 or 15
and the offset is strictly below 24 hours (the `timezone` constructor check). -/
def valid_isoformat_time (tstr : List Char) : Bool :=
  if tstr.length < 2 then false
  else
    let split :=
      match splitAtFirst '-' tstr with
      | some p => (p.1, some p.2)
      | Option.none =>
        match splitAtFirst '+' tstr with
        | some p => (p.1, some p.2)
        | Option.none => (tstr, Option.none)
    match parse_hh_mm_ss_ff split.1 with
    | Option.none => false
    | some (h, m, s, _) =>
      h ≤ 23 && m ≤ 59 && s ≤ 59 &&
        match split.2 with
        | Option.none => true
        | some tzstr =>
          (tzstr.length = 5 || tzstr.length = 8 || tzstr.length = 15) &&
            match parse_hh_mm_ss_ff tzstr with
            | Option.none => false
            | some (th, tm, ts, tf) =>
              (th * 3600 + tm * 60 + ts) * 1000000 + tf < 86400000000

/-- CPython 3.10 `datetime.fromisoformat(s).date()`: the first ten characters
must be `YYYY-MM-DD` (ASCII digits, valid calendar date, year ≥ 1); an
optional time part follows after a single arbitrary separator character and
must itself be valid.  Only the calendar-date component is returned. -/
def fromisoformat_date : List Char → Option PyDate
  | y1 :: y2 :: y3 :: y4 :: '-' :: mo1 :: mo2 :: '-' :: d1 :: d2 :: rest =>
    if [y1, y2, y3, y4, mo1, mo2, d1, d2].all isDig then
      let y := natFromDigits [y1, y2, y3, y4]
      let mo := 10 * digitVal mo1 + digitVal mo2
      let d := 10 * digitVal d1 + digitVal d2
      if 1 ≤ y ∧ 1 ≤ mo ∧ mo ≤ 12 ∧ 1 ≤ d ∧ d ≤ daysInMonth y mo then
        match rest with
        | [] => some ⟨y, mo, d⟩
        | _sep :: trest =>
          if valid_isoformat_time trest then some ⟨y, mo, d⟩ else Option.none
      else Option.none
    else Option.none
  | _ => Option.none

/-- `s.replace("Z", "+00:00")` on character lists; since the pattern is a
single character, Python's replace-all is a per-character substitution. -/
def replaceZ (cs : List Char) : List Char :=
  cs.foldr (fun c acc => if c = 'Z' then '+' :: '0' :: '0' :: ':' :: '0' :: '0' :: acc else c :: acc) []

/-- `parse_date` (source lines 64–72): falsy input parses to `None`; otherwise
the string form has every `"Z"` replaced by `"+00:00"` and is handed to
`datetime.fromisoformat`; any failure yields `None`, success yields `.date()`. -/
def parse_date (val : PyVal) : Option PyDate :=
  if pyTruthy val then fromisoformat_date (replaceZ (pyStr val).data)
  else Option.none

/-- `COMPLETED_VALUES` (source line 13). -/
def COMPLETED_VALUES : List String :=
  ["completed", "complete", "done", "closed", "100%"]

/-- `normalize_status` (source lines 75–78). -/
def normalize_status (val : PyVal) : String :=
  if val = PyVal.none then ""
  else pyLower (pyStrip (pyStr val))

/-- An insertion-ordered string-keyed dictionary (Python `dict`): assigning an
existing key updates the value in place, a new key is appended. -/
abbrev Dict := List (String × Int)

/-- `d[k] = v` on a Python dict. -/
def dictInsert (m : Dict) (k : String) (v : Int) : Dict :=
  if m.any (fun p => p.1 == k) then
    m.map (fun p => if p.1 == k then (k, v) else p)
  else m ++ [(k, v)]

/-- `d.get(k)` / `d[k]` on a Python dict. -/
def dictLookup (m : Dict) (k : String) : Option Int :=
  (m.find? (fun p => p.1 == k)).map Prod.snd

/-- `d.keys()` in iteration (= insertion) order. -/
def dictKeys (m : Dict) : List String :=
  m.map Prod.fst

/-- A sheet column: `{"title": ..., "id": ..., "primary": ...}`; `primary`
is absent (falsy) on all but the primary column. -/
structure Column where
  title : String
  id : Int
  primary : Bool
deriving DecidableEq, Repr

/-- A row cell.  `value`/`displayValue` are `Option.none` when the JSON key is
absent, and `some PyVal.none` when the key is present with a `null` value. -/
structure Cell where
  columnId : Option Int
  value : Option PyVal
  displayValue : Option PyVal
deriving DecidableEq, Repr

/-- A sheet row: `{"cells": [...]}`. -/
structure Row where
  cells : List Cell
deriving DecidableEq, Repr

/-- The tabular document returned by the sheet source. -/
structure Sheet where
  columns : List Column
  rows : List Row
deriving DecidableEq, Repr

/-- `build_column_maps` (source lines 37–50): returns
`(title_to_id, norm_to_id, primary_col_id)`; the normalized key is the
stripped, lower-cased title, and the last column flagged primary wins. -/
def build_column_maps (sheet : Sheet) : Dict × Dict × Option Int :=
  sheet.columns.foldl
    (fun acc c =>
      (dictInsert acc.1 c.title c.id,
       dictInsert acc.2.1 (pyLower (pyStrip c.title)) c.id,
       if c.primary then some c.id else acc.2.2))
    ([], [], Option.none)

/-- `cell_value` (source lines 53–61): the first cell whose `columnId` equals
`col_id` is consulted; a present `value` key wins even when its value is
`null`, `displayValue` is used only when the `value` key is absent, and the
result is `None` when neither key is present or no cell matches. -/
def cell_value (row : Row) (col_id : Option Int) : PyVal :=
  match row.cells.find? (fun cell => cell.columnId == col_id) with
  | some cell =>
    match cell.value with
    | some v => v
    | Option.none =>
      match cell.displayValue with
      | some v => v
      | Option.none => PyVal.none
  | Option.none => PyVal.none

/-- Python's `$` in a non-MULTILINE pattern also matches just before a single
trailing newline; this removes that newline, if present. -/
def stripTrailingNewline (l : List Char) : List Char :=
  match l.getLast? with
  | some c => if c = '\n' then l.dropLast else l
  | Option.none => l

/-- `re.match(r"^m(\d+)$", s)`, returning the digit group.  A single trailing
`'\n'` is tolerated (Python `$`); `\d` is modelled as ASCII digits (the
normalized titles fed to it are stripped and lower-cased, where the two
coincide for this use). -/
def matchBase (s : String) : Option String :=
  match stripTrailingNewline s.data with
  | 'm' :: rest =>
    if rest.isEmpty then Option.none
    else if rest.all isDig then some ⟨rest⟩
    else Option.none
  | _ => Option.none

/-- A detected milestone column triple (source lines 95–100). -/
structure MilestoneSet where
  label : String
  title_id : Int
  date_id : Int
  status_id : Int
deriving DecidableEq, Repr

/-- The numeric sort key `int(x["label"][1:])` (source line 102). -/
def labelNum (ms : MilestoneSet) : Nat :=
  natFromDigits (ms.label.data.drop 1)

/-- Ascending order on the numeric label suffix, the key of the final
`sets.sort`. -/
def msLE (a b : MilestoneSet) : Prop := labelNum a ≤ labelNum b

instance : DecidableRel msLE := fun a b => inferInstanceAs (Decidable (labelNum a ≤ labelNum b))

instance : IsTotal MilestoneSet msLE := ⟨fun a b => Nat.le_total (labelNum a) (labelNum b)⟩

instance : IsTrans MilestoneSet msLE := ⟨fun _ _ _ h1 h2 => Nat.le_trans h1 h2⟩

/-- `detect_milestone_sets` (source lines 81–103): for every normalized title
matching `^m(\d+)$` whose companions `"m<n> date"` and `"m<n> status"` exist,
emit one entry, then stable-sort by the numeric label suffix.  (Python indexes
`norm_to_id[base]` directly, which can only fail for a key with a trailing
newline — impossible for stripped titles; that unreachable `KeyError` is
modelled as skipping the entry.)  Python's stable `list.sort` is modelled by
insertion sort, which is the (unique) stable sort for this total preorder.
`candidateOf` is the loop body producing the entry of one normalized title. -/
def candidateOf (norm_to_id : Dict) (norm_title : String) : Option MilestoneSet :=
  match matchBase norm_title with
  | some n =>
    let base := "m" ++ n
    match dictLookup norm_to_id base, dictLookup norm_to_id (base ++ " date"),
        dictLookup norm_to_id (base ++ " status") with
    | some t, some dk, some sk => some ⟨"M" ++ n, t, dk, sk⟩
    | _, _, _ => Option.none
  | Option.none => Option.none

/-- `detect_milestone_sets` (source lines 81–103): one candidate entry per
normalized title, stable-sorted by the numeric label suffix. -/
def detect_milestone_sets (norm_to_id : Dict) : List MilestoneSet :=
  ((dictKeys norm_to_id).filterMap (candidateOf norm_to_id)).insertionSort msLE

/-- A past-due milestone record as appended on source lines 130–136.
`milestone` and `status` hold raw Python values (the title falls back to the
label string; the status is kept unnormalized). -/
structure Hit where
  milestone : PyVal
  label : String
  due : String
  days : Int
  status : PyVal
deriving DecidableEq, Repr

/-- Descending order on `days`, the key of `hits.sort(..., reverse=True)`. -/
def hitGE (a b : Hit) : Prop := b.days ≤ a.days

instance : DecidableRel hitGE := fun a b => inferInstanceAs (Decidable (b.days ≤ a.days))

instance : IsTotal Hit hitGE := ⟨fun a b => Int.le_total b.days a.days⟩

instance : IsTrans Hit hitGE := ⟨fun _ _ _ h1 h2 => Int.le_trans h2 h1⟩

/-- One emitted project (source line 140). -/
structure ProjectResult where
  project : PyVal
  hits : List Hit
deriving DecidableEq, Repr

/-- `r["hits"][0]["days"]` (source line 142); every emitted result has a
non-empty `hits` list, so the default branch is unreachable there. -/
def firstHitDays (r : ProjectResult) : Int :=
  match r.hits with
  | [] => 0
  | h :: _ => h.days

/-- Descending order on the first hit's `days`, the key of the final
`results.sort(..., reverse=True)`. -/
def resGE (a b : ProjectResult) : Prop := firstHitDays b ≤ firstHitDays a

instance : DecidableRel resGE := fun a b =>
  inferInstanceAs (Decidable (firstHitDays b ≤ firstHitDays a))

instance : IsTotal ProjectResult resGE := ⟨fun a b => Int.le_total (firstHitDays b) (firstHitDays a)⟩

instance : IsTrans ProjectResult resGE := ⟨fun _ _ _ h1 h2 => Int.le_trans h2 h1⟩

/-- The body of the inner milestone loop (source lines 120–136): the hit
produced by one row for one milestone set, if any. -/
def hitOf (today : PyDate) (row : Row) (ms : MilestoneSet) : Option Hit :=
  let t := cell_value row (some ms.title_id)
  let title := if pyTruthy t then t else PyVal.str ms.label
  let due_val := cell_value row (some ms.date_id)
  let status_val := cell_value row (some ms.status_id)
  match parse_date due_val with
  | Option.none => Option.none
  | some due_dt =>
    if dateLt due_dt today ∧ normalize_status status_val ∉ COMPLETED_VALUES then
      some ⟨title, ms.label, isoformat due_dt, dateDiffDays today due_dt, status_val⟩
    else Option.none

/-- The hits of one row, in schema order (before sorting). -/
def row_hits (today : PyDate) (msets : List MilestoneSet) (row : Row) : List Hit :=
  msets.filterMap (hitOf today row)

/-- `project = cell_value(row, primary_col_id) or "(Unnamed Project)"`
(source line 117): a falsy cell value falls back to the placeholder. -/
def projectOf (row : Row) (primary_col_id : Option Int) : PyVal :=
  let v := cell_value row primary_col_id
  if pyTruthy v then v else PyVal.str "(Unnamed Project)"

/-- The body of the row loop (source lines 116–140): the `ProjectResult`
emitted for one row, if the row produced any hits. -/
def processRow (today : PyDate) (msets : List MilestoneSet) (pcid : Option Int)
    (row : Row) : Option ProjectResult :=
  let hits := row_hits today msets row
  if hits.isEmpty then Option.none
  else some ⟨projectOf row pcid, hits.insertionSort hitGE⟩

/-- `find_past_due_milestones` (source lines 106–143).  The source obtains
`today` by calling `get_today_local()` (an ambient clock read); here the value
that call returns is an explicit parameter, so that the dependence on it can
be stated.  A raised `RuntimeError` is `Except.error`. -/
def find_past_due_milestones (today : PyDate) (sheet : Sheet) :
    Except String (List ProjectResult) :=
  let maps := build_column_maps sheet
  let milestone_sets := detect_milestone_sets maps.2.1
  if milestone_sets.isEmpty then
    Except.error "No milestone columns found (expected M1 / M1 date / M1 Status pattern)."
  else
    Except.ok ((sheet.rows.filterMap (processRow today milestone_sets maps.2.2)).insertionSort resGE)

/-- `get_today_local` (source lines 25–27) reads the ambient clock:
`datetime.now(tz).date()`.  The ambient clock's current local date is the
`clock` argument. -/
def get_today_local (clock : PyDate) : PyDate := clock

/-- `find_past_due_milestones` as actually invoked: `today` is not a
parameter of the Python function, it is read ambiently inside (source line
108), so the composed behaviour depends on the ambient clock. -/
def find_past_due_milestones_ambient (clock : PyDate) (sheet : Sheet) :
    Except String (List ProjectResult) :=
  find_past_due_milestones (get_today_local clock) sheet

/-- One indented hit line of the report (source lines 160–163). -/
def hit_line (h : Hit) : String :=
  "   - " ++ pyStr h.milestone ++ " (" ++ h.label ++ ") | Due: " ++ h.due ++
    " | Overdue: " ++ toString h.days ++ "d | Status: " ++ pyStr h.status

/-- `"\n".join(lines)`. -/
def joinLines : List String → String
  | [] => ""
  | [l] => l
  | l :: ls => l ++ "\n" ++ joinLines ls

/-- `format_summary` (source lines 146–166). -/
def format_summary (results : List ProjectResult) : String :=
  if results.isEmpty then "No past-due incomplete milestones found 🎉"
  else
    let total := results.foldl (fun acc r => acc + r.hits.length) 0
    let header : List String :=
      ["Past-due milestones (not completed): " ++ toString total,
       "Projects impacted: " ++ toString results.length,
       ""]
    let body := results.foldl
      (fun acc r => acc ++ (("• " ++ pyStr r.project) :: r.hits.map hit_line) ++ [""]) []
    ⟨pyStripL (joinLines (header ++ body)).data⟩

/-- One indented hit line as the spec (§4.5) words it:
`"   - <milestoneTitle> (<label>) | Due: <dueDate ISO> | Overdue: <overdueDays>d | Status: <status>"`. -/
def spec_hit_line (h : Hit) : String :=
  "   - " ++ pyStr h.milestone ++ " (" ++ h.label ++ ") | Due: " ++ h.due ++
    " | Overdue: " ++ toString h.days ++ "d | Status: " ++ pyStr h.status

/-- Per-project blocks as the spec (§4.5) words them: a `"• <projectName>"`
line, one indented line per hit, then a blank line. -/
def spec_blocks : List ProjectResult → List String
  | [] => []
  | r :: rs => ("• " ++ pyStr r.project) :: (r.hits.map spec_hit_line ++ ("" :: spec_blocks rs))

/-- The summary format as described by the spec (§4.5), for comparison with
`format_summary`: the celebratory literal for an empty result list; otherwise
a total line and a project-count line, a blank line, the per-project blocks,
with trailing whitespace stripped. -/
def formatSummarySpec (results : List ProjectResult) : String :=
  if results = [] then "No past-due incomplete milestones found 🎉"
  else
    let total := (results.map (fun r => r.hits.length)).sum
    let header : List String :=
      ["Past-due milestones (not completed): " ++ toString total,
       "Projects impacted: " ++ toString results.length,
       ""]
    ⟨pyRstripL (joinLines (header ++ spec_blocks results)).data⟩

/-- The one-row scenario document of spec §8: columns
`Project (primary), M1, M1 Date, M1 Status` and one row for project `Alpha`
whose `M1` milestone `Kickoff` was due 2020-01-01 with status `Open`. -/
def sheetA : Sheet :=
  ⟨[⟨"Project", 1, true⟩, ⟨"M1", 2, false⟩, ⟨"M1 Date", 3, false⟩, ⟨"M1 Status", 4, false⟩],
   [⟨[⟨some 1, some (PyVal.str "Alpha"), Option.none⟩,
      ⟨some 2, some (PyVal.str "Kickoff"), Option.none⟩,
      ⟨some 3, some (PyVal.str "2020-01-01"), Option.none⟩,
      ⟨some 4, some (PyVal.str "Open"), Option.none⟩]⟩]⟩

/-- The single result the evaluator produces for `sheetA` at 2020-01-10. -/
def resA : ProjectResult :=
  ⟨PyVal.str "Alpha", [⟨PyVal.str "Kickoff", "M1", "2020-01-01", 9, PyVal.str "Open"⟩]⟩

/-- A two-row, two-milestone document exercising the sort policy: row `A` has
two hits tied at 5 overdue days; row `B` has hits of 5 and 3 days and ties
with `A` on the leading hit. -/
def sheet5 : Sheet :=
  ⟨[⟨"Project", 1, true⟩, ⟨"M1", 2, false⟩, ⟨"M1 Date", 3, false⟩, ⟨"M1 Status", 4, false⟩,
    ⟨"M2", 5, false⟩, ⟨"M2 Date", 6, false⟩, ⟨"M2 Status", 7, false⟩],
   [⟨[⟨some 1, some (PyVal.str "A"), Option.none⟩,
      ⟨some 3, some (PyVal.str "2020-01-05"), Option.none⟩,
      ⟨some 4, some (PyVal.str "Open"), Option.none⟩,
      ⟨some 6, some (PyVal.str "2020-01-05"), Option.none⟩,
      ⟨some 7, some (PyVal.str "Open"), Option.none⟩]⟩,
    ⟨[⟨some 1, some (PyVal.str "B"), Option.none⟩,
      ⟨some 3, some (PyVal.str "2020-01-07"), Option.none⟩,
      ⟨some 4, some (PyVal.str "Open"), Option.none⟩,
      ⟨some 6, some (PyVal.str "2020-01-05"), Option.none⟩,
      ⟨some 7, some (PyVal.str "Open"), Option.none⟩]⟩]⟩

/-- The evaluator's output for `sheet5` at 2020-01-10: descending by
`overdueDays`, ties in schema order within a row and in row order across
rows. -/
def rs5 : List ProjectResult :=
  [⟨PyVal.str "A",
    [⟨PyVal.str "M1", "M1", "2020-01-05", 5, PyVal.str "Open"⟩,
     ⟨PyVal.str "M2", "M2", "2020-01-05", 5, PyVal.str "Open"⟩]⟩,
   ⟨PyVal.str "B",
    [⟨PyVal.str "M2", "M2", "2020-01-05", 5, PyVal.str "Open"⟩,
     ⟨PyVal.str "M1", "M1", "2020-01-07", 3, PyVal.str "Open"⟩]⟩]

/-- A normalized-name map with milestone triples `m1`, `m2`, `m10` (in
scrambled insertion order) and a partial triple `m5` lacking its status
column. -/
def dictB : Dict :=
  [("project", 1), ("m2", 2), ("m2 date", 3), ("m2 status", 4),
   ("m10", 5), ("m10 date", 6), ("m10 status", 7),
   ("m1", 8), ("m1 date", 9), ("m1 status", 10),
   ("m5", 11), ("m5 date", 12)]

/-! ### Helper lemmas -/

theorem digitVal_le_nine {c : Char} (h : isDig c = true) : digitVal c ≤ 9 := by
  simp only [isDig, Bool.and_eq_true, decide_eq_true_eq] at h
  simp only [digitVal]
  omega

theorem isDig_ne_newline {c : Char} (h : isDig c = true) : c ≠ '\n' := by
  simp only [isDig, Bool.and_eq_true, decide_eq_true_eq] at h
  intro hc
  subst hc
  simp at h

theorem fromisoformat_date_valid {cs : List Char} {d : PyDate}
    (h : fromisoformat_date cs = some d) : validDate d := by
  simp only [fromisoformat_date] at h
  split at h
  case h_2 => exact Option.noConfusion h
  case h_1 y1 y2 y3 y4 mo1 mo2 d1 d2 rest =>
    split at h
    case isFalse => exact Option.noConfusion h
    case isTrue hdig =>
      simp only [List.all_cons, List.all_nil, Bool.and_eq_true, Bool.and_true] at hdig
      obtain ⟨h1, h2, h3, h4, h5, h6, h7, h8⟩ := hdig
      split at h
      case isFalse => exact Option.noConfusion h
      case isTrue hrange =>
        have hy : natFromDigits [y1, y2, y3, y4] ≤ 9999 := by
          have b1 := digitVal_le_nine h1
          have b2 := digitVal_le_nine h2
          have b3 := digitVal_le_nine h3
          have b4 := digitVal_le_nine h4
          simp only [natFromDigits, List.foldl_cons, List.foldl_nil]
          omega
        have hd : d = ⟨natFromDigits [y1, y2, y3, y4],
            10 * digitVal mo1 + digitVal mo2, 10 * digitVal d1 + digitVal d2⟩ := by
          revert h
          split
          · intro h; exact (Option.some.injEq _ _ ▸ h).symm
          · split
            · intro h; exact (Option.some.injEq _ _ ▸ h).symm
            · intro h; exact Option.noConfusion h
        subst hd
        obtain ⟨r1, r2, r3, r4, r5⟩ := hrange
        exact ⟨r1, hy, r2, r3, r4, r5⟩

theorem parse_date_valid {v : PyVal} {d : PyDate} (h : parse_date v = some d) :
    validDate d := by
  unfold parse_date at h
  split at h
  · exact fromisoformat_date_valid h
  · exact Option.noConfusion h

theorem replaceZ_cons (c : Char) (t : List Char) :
    replaceZ (c :: t) =
      if c = 'Z' then '+' :: '0' :: '0' :: ':' :: '0' :: '0' :: replaceZ t
      else c :: replaceZ t := rfl

theorem replaceZ_append (a b : List Char) :
    replaceZ (a ++ b) = replaceZ a ++ replaceZ b := by
  induction a with
  | nil => rfl
  | cons c t ih =>
    simp only [List.cons_append, replaceZ_cons, ih]
    split <;> rfl

theorem replaceZ_of_not_mem {l : List Char} (h : 'Z' ∉ l) : replaceZ l = l := by
  induction l with
  | nil => rfl
  | cons c t ih =>
    simp only [List.mem_cons, not_or] at h
    rw [replaceZ_cons, if_neg (fun hc => h.1 hc.symm), ih h.2]

theorem hitOf_some {today : PyDate} {row : Row} {ms : MilestoneSet} {h : Hit}
    (hh : hitOf today row ms = some h) :
    ∃ d, parse_date (cell_value row (some ms.date_id)) = some d ∧
      h.due = isoformat d ∧ h.days = dateDiffDays today d ∧ 1 ≤ h.days := by
  cases hp : parse_date (cell_value row (some ms.date_id)) with
  | none => simp [hitOf, hp] at hh
  | some dd =>
    simp only [hitOf, hp] at hh
    by_cases hc : dateLt dd today = true ∧
        normalize_status (cell_value row (some ms.status_id)) ∉ COMPLETED_VALUES
    · rw [if_pos hc] at hh
      injection hh with hh
      subst hh
      refine ⟨dd, rfl, rfl, rfl, ?_⟩
      have hlt := hc.1
      simp only [dateLt, decide_eq_true_eq] at hlt
      simp only [dateDiffDays]
      omega
    · rw [if_neg hc] at hh
      exact Option.noConfusion hh

theorem find_ok_iff {today : PyDate} {sheet : Sheet} {rs : List ProjectResult} :
    find_past_due_milestones today sheet = Except.ok rs ↔
      (detect_milestone_sets (build_column_maps sheet).2.1 ≠ [] ∧
        rs = (sheet.rows.filterMap
          (processRow today (detect_milestone_sets (build_column_maps sheet).2.1)
            (build_column_maps sheet).2.2)).insertionSort resGE) := by
  simp only [find_past_due_milestones]
  split
  next hemp =>
    rw [List.isEmpty_iff] at hemp
    constructor
    · intro h; exact Except.noConfusion h
    · intro h; exact absurd hemp h.1
  next hemp =>
    rw [List.isEmpty_iff] at hemp
    constructor
    · intro h; injection h with h; exact ⟨hemp, h.symm⟩
    · intro h; rw [h.2]

theorem processRow_some {today : PyDate} {msets : List MilestoneSet} {pcid : Option Int}
    {row : Row} {r : ProjectResult} (h : processRow today msets pcid row = some r) :
    row_hits today msets row ≠ [] ∧
      r = ⟨projectOf row pcid, (row_hits today msets row).insertionSort hitGE⟩ := by
  simp only [processRow] at h
  split at h
  next hemp => exact Option.noConfusion h
  next hemp =>
    rw [List.isEmpty_iff] at hemp
    injection h with h
    exact ⟨hemp, h.symm⟩

/-! ### Claim theorems -/

/-- C2: `normalize_status` maps `None` to `""` and any other value to its
trimmed, lower-cased string form; membership in `COMPLETED_VALUES` is
case- and whitespace-insensitive, so `" Completed "`, `"COMPLETE"`, `"done"`
and `"100%"` suppress a hit while `"in progress"`, `""` and an absent status
do not. -/
theorem c2_normalize_status :
    normalize_status PyVal.none = "" ∧
    (∀ v, v ≠ PyVal.none → normalize_status v = pyLower (pyStrip (pyStr v))) ∧
    (∀ today row ms, cell_value row (some ms.status_id) = PyVal.str " Completed " →
      hitOf today row ms = Option.none) ∧
    (∀ today row ms d, parse_date (cell_value row (some ms.date_id)) = some d →
      dateLt d today = true →
      cell_value row (some ms.status_id) = PyVal.str "in progress" →
      (hitOf today row ms).isSome = true) ∧
    (normalize_status (PyVal.str " Completed ") ∈ COMPLETED_VALUES ∧
      normalize_status (PyVal.str "COMPLETE") ∈ COMPLETED_VALUES ∧
      normalize_status (PyVal.str "done") ∈ COMPLETED_VALUES ∧
      normalize_status (PyVal.str "100%") ∈ COMPLETED_VALUES ∧
      normalize_status (PyVal.str "in progress") ∉ COMPLETED_VALUES ∧
      normalize_status (PyVal.str "") ∉ COMPLETED_VALUES ∧
      normalize_status PyVal.none ∉ COMPLETED_VALUES) := by
  refine ⟨rfl, ?_, ?_, ?_, by decide⟩
  · intro v hv
    simp only [normalize_status, if_neg hv]
  · intro today row ms hs
    simp only [hitOf, hs]
    split
    · rfl
    · rw [if_neg]
      intro hcond
      exact hcond.2 (by decide)
  · intro today row ms d hp hlt hs
    simp only [hitOf, hp, hs]
    rw [if_pos ⟨hlt, by decide⟩]
    rfl

/-- Witness for C2 at concrete inputs. -/
theorem c2_normalize_status_witness :
    normalize_status (PyVal.str "x") = pyLower (pyStrip (pyStr (PyVal.str "x"))) ∧
    hitOf ⟨2020, 1, 10⟩
      ⟨[⟨some 3, some (PyVal.str "2020-01-01"), Option.none⟩,
        ⟨some 4, some (PyVal.str " Completed "), Option.none⟩]⟩
      ⟨"M1", 2, 3, 4⟩ = Option.none ∧
    (hitOf ⟨2020, 1, 10⟩
      ⟨[⟨some 3, some (PyVal.str "2020-01-01"), Option.none⟩,
        ⟨some 4, some (PyVal.str "in progress"), Option.none⟩]⟩
      ⟨"M1", 2, 3, 4⟩).isSome = true :=
  ⟨c2_normalize_status.2.1 (PyVal.str "x") (by decide),
    c2_normalize_status.2.2.1 ⟨2020, 1, 10⟩ _ _ (by decide),
    c2_normalize_status.2.2.2.1 ⟨2020, 1, 10⟩ _ _ ⟨2020, 1, 1⟩
      (by decide) (by decide) (by decide)⟩

/-- C10: `cell_value` consults the first cell whose `columnId` matches; a
present `value` key wins even when its value is `null` (no fallback to
`displayValue`); `displayValue` is used only when the `value` key is absent;
`None` results when the matched cell has neither key or no cell matches. -/
theorem c10_cell_value :
    ∀ row cid,
      (row.cells.find? (fun c => c.columnId == cid) = Option.none →
        cell_value row cid = PyVal.none) ∧
      (∀ c, row.cells.find? (fun c' => c'.columnId == cid) = some c →
        (∀ v, c.value = some v → cell_value row cid = v) ∧
        (c.value = Option.none → ∀ v, c.displayValue = some v → cell_value row cid = v) ∧
        (c.value = Option.none → c.displayValue = Option.none →
          cell_value row cid = PyVal.none)) := by
  intro row cid
  constructor
  · intro h
    simp only [cell_value, h]
  · intro c hc
    refine ⟨?_, ?_, ?_⟩
    · intro v hv
      simp only [cell_value, hc, hv]
    · intro hv v hd
      simp only [cell_value, hc, hv, hd]
    · intro hv hd
      simp only [cell_value, hc, hv, hd]

/-- Witness for C10: a cell with a `null` `value` and a non-null
`displayValue` resolves to `None` (no fallback). -/
theorem c10_cell_value_witness :
    (Row.mk [⟨some 1, some PyVal.none, some (PyVal.str "shown")⟩]).cells.find?
        (fun c' => c'.columnId == some 1) =
      some ⟨some 1, some PyVal.none, some (PyVal.str "shown")⟩ ∧
    cell_value ⟨[⟨some 1, some PyVal.none, some (PyVal.str "shown")⟩]⟩ (some 1) =
      PyVal.none :=
  ⟨by decide,
    ((c10_cell_value ⟨[⟨some 1, some PyVal.none, some (PyVal.str "shown")⟩]⟩ (some 1)).2
      ⟨some 1, some PyVal.none, some (PyVal.str "shown")⟩ (by decide)).1 PyVal.none rfl⟩

/-- C8: `parse_date` is total; falsy input yields `none`; a trailing `"Z"` is
treated as `"+00:00"`; a successful parse is a valid calendar date (only the
date component is kept); a parse failure makes the milestone contribute no
hit in the evaluator. -/
theorem c8_parse_date :
    (∀ v, pyTruthy v = false → parse_date v = Option.none) ∧
    (∀ s : String, 'Z' ∉ s.data →
      parse_date (PyVal.str (s ++ "Z")) = parse_date (PyVal.str (s ++ "+00:00"))) ∧
    (∀ v d, parse_date v = some d → validDate d) ∧
    parse_date (PyVal.str "not-a-date") = Option.none ∧
    (∀ today row ms, parse_date (cell_value row (some ms.date_id)) = Option.none →
      hitOf today row ms = Option.none) := by
  refine ⟨?_, ?_, fun v d h => parse_date_valid h, by decide, ?_⟩
  · intro v hv
    simp only [parse_date, hv, Bool.false_eq_true, if_false]
  · intro s hz
    have h1 : pyTruthy (PyVal.str (s ++ "Z")) = true := by
      simp [pyTruthy, String.data_append]
    have h2 : pyTruthy (PyVal.str (s ++ "+00:00")) = true := by
      simp [pyTruthy, String.data_append]
    simp only [parse_date, h1, h2, if_true, pyStr]
    rw [String.data_append, String.data_append, replaceZ_append, replaceZ_append,
      replaceZ_of_not_mem hz]
    rfl
  · intro today row ms h
    simp only [hitOf, h]

/-- Witness for C8 at concrete inputs. -/
theorem c8_parse_date_witness :
    parse_date (PyVal.str "") = Option.none ∧
    parse_date (PyVal.str ("2021-03-04T05:06:07" ++ "Z")) =
      parse_date (PyVal.str ("2021-03-04T05:06:07" ++ "+00:00")) ∧
    validDate ⟨2021, 3, 4⟩ ∧
    hitOf ⟨2020, 1, 10⟩ ⟨[⟨some 3, some (PyVal.str "not-a-date"), Option.none⟩]⟩
      ⟨"M1", 2, 3, 4⟩ = Option.none :=
  ⟨c8_parse_date.1 (PyVal.str "") (by decide),
    c8_parse_date.2.1 "2021-03-04T05:06:07" (by decide),
    c8_parse_date.2.2.1 (PyVal.str "2021-03-04T05:06:07Z") ⟨2021, 3, 4⟩ (by decide),
    c8_parse_date.2.2.2.2 ⟨2020, 1, 10⟩ _ _ (by decide)⟩

/-- C1: for every row and milestone schema entry, a hit is produced iff the
date cell parses, the date is strictly before `today`, and the normalized
status is not completed; every hit has `overdueDays = today - dueDate ≥ 1`,
also across the whole evaluator output. -/
theorem c1_past_due_invariant :
    ∀ today : PyDate,
      (∀ row ms,
        ((hitOf today row ms).isSome = true ↔
          ∃ d, parse_date (cell_value row (some ms.date_id)) = some d ∧
            dateLt d today = true ∧
            normalize_status (cell_value row (some ms.status_id)) ∉ COMPLETED_VALUES) ∧
        (∀ h, hitOf today row ms = some h →
          ∃ d, parse_date (cell_value row (some ms.date_id)) = some d ∧
            h.due = isoformat d ∧ h.days = dateDiffDays today d ∧ 1 ≤ h.days)) ∧
      (∀ sheet rs, find_past_due_milestones today sheet = Except.ok rs →
        ∀ r ∈ rs, ∀ h ∈ r.hits, 1 ≤ h.days) := by
  intro today
  constructor
  · intro row ms
    constructor
    · constructor
      · intro hsome
        cases hp : parse_date (cell_value row (some ms.date_id)) with
        | none => simp [hitOf, hp] at hsome
        | some dd =>
          simp only [hitOf, hp] at hsome
          by_cases hc : dateLt dd today = true ∧
              normalize_status (cell_value row (some ms.status_id)) ∉ COMPLETED_VALUES
          · exact ⟨dd, rfl, hc.1, hc.2⟩
          · rw [if_neg hc] at hsome
            exact Bool.noConfusion hsome
      · rintro ⟨d, hp, hlt, hns⟩
        simp only [hitOf, hp]
        rw [if_pos ⟨hlt, hns⟩]
        rfl
    · intro h hh
      exact hitOf_some hh
  · intro sheet rs hrs r hr h hh
    obtain ⟨-, hrs⟩ := find_ok_iff.mp hrs
    subst hrs
    obtain ⟨row, -, hpr⟩ := List.mem_filterMap.mp ((List.mem_insertionSort _).mp hr)
    obtain ⟨-, hre⟩ := processRow_some hpr
    subst hre
    simp only [row_hits] at hh
    obtain ⟨ms, -, hms⟩ :=
      List.mem_filterMap.mp ((List.mem_insertionSort _).mp hh)
    obtain ⟨d, -, -, -, hd⟩ := hitOf_some hms
    exact hd

/-- Witness for C1 at the concrete §8 scenario row. -/
theorem c1_past_due_invariant_witness :
    (hitOf ⟨2020, 1, 10⟩
      ⟨[⟨some 3, some (PyVal.str "2020-01-01"), Option.none⟩,
        ⟨some 4, some (PyVal.str "Open"), Option.none⟩]⟩
      ⟨"M1", 2, 3, 4⟩).isSome = true ∧
    (1 : Int) ≤ 9 :=
  ⟨((c1_past_due_invariant ⟨2020, 1, 10⟩).1
      ⟨[⟨some 3, some (PyVal.str "2020-01-01"), Option.none⟩,
        ⟨some 4, some (PyVal.str "Open"), Option.none⟩]⟩
      ⟨"M1", 2, 3, 4⟩).1.mpr
    ⟨⟨2020, 1, 1⟩, by decide, by decide, by decide⟩, by decide⟩

/-- C4 (amended): the evaluator reports an error iff zero milestone sets are
detected from the document's columns; with at least one detected set it
returns normally, and a zero-row document with at least one detected set
yields the empty result list, which the formatter renders as the celebratory
message.  (As literally stated the claim fails: a zero-row document whose
columns detect no milestone set raises instead of returning `[]`.) -/
theorem c4_schema_error :
    (∀ (today : PyDate) (sheet : Sheet),
      (∃ e, find_past_due_milestones today sheet = Except.error e) ↔
        detect_milestone_sets (build_column_maps sheet).2.1 = []) ∧
    (∀ (today : PyDate) (sheet : Sheet),
      detect_milestone_sets (build_column_maps sheet).2.1 ≠ [] →
        ∃ rs, find_past_due_milestones today sheet = Except.ok rs) ∧
    (∀ (today : PyDate) (sheet : Sheet), sheet.rows = [] →
      detect_milestone_sets (build_column_maps sheet).2.1 ≠ [] →
        find_past_due_milestones today sheet = Except.ok []) ∧
    format_summary [] = "No past-due incomplete milestones found 🎉" := by
  refine ⟨?_, ?_, ?_, rfl⟩
  · intro today sheet
    constructor
    · rintro ⟨e, he⟩
      simp only [find_past_due_milestones] at he
      split at he
      next hemp => exact List.isEmpty_iff.mp hemp
      next hemp => exact Except.noConfusion he
    · intro hdet
      have he : find_past_due_milestones today sheet = Except.error
          "No milestone columns found (expected M1 / M1 date / M1 Status pattern)." := by
        simp only [find_past_due_milestones]
        rw [if_pos (List.isEmpty_iff.mpr hdet)]
      exact ⟨_, he⟩
  · intro today sheet hdet
    exact ⟨_, find_ok_iff.mpr ⟨hdet, rfl⟩⟩
  · intro today sheet hrows hdet
    refine find_ok_iff.mpr ⟨hdet, ?_⟩
    rw [hrows]
    rfl

/-- C4 counterexample: the empty document has zero rows, yet the evaluator
raises the schema error instead of returning an empty result list. -/
theorem c4_schema_error_counterexample :
    (Sheet.mk [] []).rows = [] ∧
    find_past_due_milestones ⟨2020, 1, 10⟩ ⟨[], []⟩ =
      Except.error "No milestone columns found (expected M1 / M1 date / M1 Status pattern)." :=
  ⟨rfl, rfl⟩

/-- Witness for C4 on a zero-row document that does carry milestone columns. -/
theorem c4_schema_error_witness :
    (Sheet.mk [⟨"Project", 1, true⟩, ⟨"M1", 2, false⟩, ⟨"M1 Date", 3, false⟩,
        ⟨"M1 Status", 4, false⟩] []).rows = [] ∧
    find_past_due_milestones ⟨2020, 1, 10⟩
      ⟨[⟨"Project", 1, true⟩, ⟨"M1", 2, false⟩, ⟨"M1 Date", 3, false⟩,
        ⟨"M1 Status", 4, false⟩], []⟩ = Except.ok [] ∧
    format_summary [] = "No past-due incomplete milestones found 🎉" :=
  ⟨rfl,
    c4_schema_error.2.2.1 ⟨2020, 1, 10⟩
      ⟨[⟨"Project", 1, true⟩, ⟨"M1", 2, false⟩, ⟨"M1 Date", 3, false⟩,
        ⟨"M1 Status", 4, false⟩], []⟩ rfl (by decide),
    c4_schema_error.2.2.2⟩

/-- C9 (amended): `projectName` is the primary-column cell value when that
value is truthy, and the placeholder `"(Unnamed Project)"` when the value is
absent or otherwise falsy (empty string, `0`, `False`) — not only when
absent; every emitted result's name arises this way from its row. -/
theorem c9_project_name :
    (∀ row pcid, pyTruthy (cell_value row pcid) = true →
      projectOf row pcid = cell_value row pcid) ∧
    (∀ row pcid, pyTruthy (cell_value row pcid) = false →
      projectOf row pcid = PyVal.str "(Unnamed Project)") ∧
    (∀ today sheet rs, find_past_due_milestones today sheet = Except.ok rs →
      ∀ r ∈ rs, ∃ row ∈ sheet.rows,
        r.project = projectOf row (build_column_maps sheet).2.2) := by
  refine ⟨?_, ?_, ?_⟩
  · intro row pcid h
    simp only [projectOf, h, if_true]
  · intro row pcid h
    simp only [projectOf, h, Bool.false_eq_true, if_false]
  · intro today sheet rs hrs r hr
    obtain ⟨-, hrs⟩ := find_ok_iff.mp hrs
    subst hrs
    obtain ⟨row, hrow, hpr⟩ := List.mem_filterMap.mp ((List.mem_insertionSort _).mp hr)
    obtain ⟨-, hre⟩ := processRow_some hpr
    exact ⟨row, hrow, by rw [hre]⟩

/-- C9 counterexample: a row whose primary cell is present with value `""`
(not absent) still gets the placeholder name. -/
theorem c9_project_name_counterexample :
    cell_value ⟨[⟨some 1, some (PyVal.str ""), Option.none⟩,
        ⟨some 3, some (PyVal.str "2020-01-01"), Option.none⟩,
        ⟨some 4, some (PyVal.str "Open"), Option.none⟩]⟩ (some 1) = PyVal.str "" ∧
    find_past_due_milestones ⟨2020, 1, 10⟩
      ⟨[⟨"Project", 1, true⟩, ⟨"M1", 2, false⟩, ⟨"M1 Date", 3, false⟩,
        ⟨"M1 Status", 4, false⟩],
       [⟨[⟨some 1, some (PyVal.str ""), Option.none⟩,
          ⟨some 3, some (PyVal.str "2020-01-01"), Option.none⟩,
          ⟨some 4, some (PyVal.str "Open"), Option.none⟩]⟩]⟩ =
      Except.ok [⟨PyVal.str "(Unnamed Project)",
        [⟨PyVal.str "M1", "M1", "2020-01-01", 9, PyVal.str "Open"⟩]⟩] :=
  ⟨rfl, rfl⟩

/-- Witness for C9 at concrete rows. -/
theorem c9_project_name_witness :
    (pyTruthy (cell_value ⟨[⟨some 1, some (PyVal.str "Alpha"), Option.none⟩]⟩ (some 1)) = true ∧
      projectOf ⟨[⟨some 1, some (PyVal.str "Alpha"), Option.none⟩]⟩ (some 1) =
        cell_value ⟨[⟨some 1, some (PyVal.str "Alpha"), Option.none⟩]⟩ (some 1)) ∧
    (pyTruthy (cell_value ⟨[⟨some 1, some (PyVal.str "Alpha"), Option.none⟩]⟩ (some 9)) = false ∧
      projectOf ⟨[⟨some 1, some (PyVal.str "Alpha"), Option.none⟩]⟩ (some 9) =
        PyVal.str "(Unnamed Project)") :=
  ⟨⟨by decide, c9_project_name.1 ⟨[⟨some 1, some (PyVal.str "Alpha"), Option.none⟩]⟩
      (some 1) (by decide)⟩,
    ⟨by decide, c9_project_name.2.1 ⟨[⟨some 1, some (PyVal.str "Alpha"), Option.none⟩]⟩
      (some 9) (by decide)⟩⟩

/-- C7: the Python evaluator takes only the sheet and obtains `today` by
calling `get_today_local()` — an ambient `datetime.now` read — inside the
component (source line 108); evaluating the same document under two ambient
clock dates yields different results, so `today` is not an injected
parameter as the claim requires. -/
theorem c7_ambient_today :
    find_past_due_milestones_ambient ⟨2020, 1, 10⟩ sheetA = Except.ok [resA] ∧
    find_past_due_milestones_ambient ⟨2019, 1, 10⟩ sheetA = Except.ok [] ∧
    decide (([resA] : List ProjectResult) = []) = false :=
  ⟨rfl, rfl, by decide⟩

theorem filter_insertionSort_stable {α} (r : α → α → Prop) [DecidableRel r] [IsTotal α r]
    [IsTrans α r] (p : α → Bool) (hp : ∀ a b, p a = true → p b = true → r a b)
    (l : List α) : (l.insertionSort r).filter p = l.filter p := by
  have hpw : (l.filter p).Pairwise r :=
    List.pairwise_of_forall_mem_list (fun a ha b hb =>
      hp a b (List.of_mem_filter ha) (List.of_mem_filter hb))
  have hsub : List.Sublist (l.filter p) (l.insertionSort r) :=
    List.sublist_insertionSort hpw (List.filter_sublist l)
  have hff : (l.filter p).filter p = l.filter p :=
    List.filter_eq_self.mpr (fun a ha => List.of_mem_filter ha)
  have h2 : List.Sublist (l.filter p) ((l.insertionSort r).filter p) := by
    have h3 := hsub.filter p
    rwa [hff] at h3
  have hperm : List.Perm ((l.insertionSort r).filter p) (l.filter p) :=
    (List.perm_insertionSort r l).filter p
  exact (h2.eq_of_length hperm.length_eq.symm).symm

/-- C5: within each result the hits are sorted by `overdueDays` descending
with ties in schema order (the multiset of hits at each `days` value keeps
its pre-sort order), and results are sorted by their first hit's
`overdueDays` descending, stable with respect to row order on ties. -/
theorem c5_sort_policy :
    ∀ today sheet rs, find_past_due_milestones today sheet = Except.ok rs →
      rs.Pairwise resGE ∧
      (∀ k : Int, rs.filter (fun r => firstHitDays r == k) =
        (sheet.rows.filterMap (processRow today
          (detect_milestone_sets (build_column_maps sheet).2.1)
          (build_column_maps sheet).2.2)).filter (fun r => firstHitDays r == k)) ∧
      (∀ r ∈ rs, r.hits.Pairwise hitGE ∧
        ∃ row ∈ sheet.rows,
          processRow today (detect_milestone_sets (build_column_maps sheet).2.1)
            (build_column_maps sheet).2.2 row = some r ∧
          ∀ k : Int, r.hits.filter (fun h => h.days == k) =
            (row_hits today (detect_milestone_sets (build_column_maps sheet).2.1) row).filter
              (fun h => h.days == k)) := by
  intro today sheet rs hrs
  obtain ⟨-, hrs⟩ := find_ok_iff.mp hrs
  subst hrs
  refine ⟨List.sorted_insertionSort resGE _, ?_, ?_⟩
  · intro k
    refine filter_insertionSort_stable resGE _ (fun a b ha hb => ?_) _
    simp only [beq_iff_eq] at ha hb
    simp only [resGE, ha, hb, le_refl]
  · intro r hr
    obtain ⟨row, hrow, hpr⟩ := List.mem_filterMap.mp ((List.mem_insertionSort _).mp hr)
    obtain ⟨-, hre⟩ := processRow_some hpr
    subst hre
    constructor
    · exact List.sorted_insertionSort hitGE _
    · refine ⟨row, hrow, hpr, ?_⟩
      intro k
      refine filter_insertionSort_stable hitGE _ (fun a b ha hb => ?_) _
      simp only [beq_iff_eq] at ha hb
      simp only [hitGE, ha, hb, le_refl]

/-- Witness for C5 on `sheet5`, whose output has ties within and across
rows. -/
theorem c5_sort_policy_witness :
    find_past_due_milestones ⟨2020, 1, 10⟩ sheet5 = Except.ok rs5 ∧ rs5.Pairwise resGE :=
  ⟨rfl, (c5_sort_policy ⟨2020, 1, 10⟩ sheet5 rs5 rfl).1⟩

theorem head?_dropWhile_not {α} {p : α → Bool} :
    ∀ {l : List α} {c}, (l.dropWhile p).head? = some c → p c = false := by
  intro l
  induction l with
  | nil => intro c h; exact Option.noConfusion h
  | cons a t ih =>
    intro c h
    rw [List.dropWhile_cons] at h
    split at h
    · exact ih h
    next hp =>
      injection h with h
      subst h
      exact Bool.not_eq_true _ ▸ hp

theorem pyStrip_fix_last {k : String} (h : pyStrip k = k) {c : Char}
    (hc : k.data.getLast? = some c) : pyIsSpace c = false := by
  have hd : pyStripL k.data = k.data := congrArg String.data h
  rw [← List.head?_reverse] at hc
  have hrev : k.data.reverse = (k.data.dropWhile pyIsSpace).reverse.dropWhile pyIsSpace := by
    conv_lhs => rw [← hd]
    simp [pyStripL, pyRstripL]
  rw [hrev] at hc
  exact head?_dropWhile_not hc

theorem stripTrailingNewline_eq_self {l : List Char}
    (h : ∀ c, l.getLast? = some c → c ≠ '\n') : stripTrailingNewline l = l := by
  unfold stripTrailingNewline
  cases hl : l.getLast? with
  | none => rfl
  | some c => exact if_neg (h c hl)

theorem matchBase_append (n : String) (hne : n.data ≠ []) (hdig : n.data.all isDig = true) :
    matchBase ("m" ++ n) = some n := by
  have hdata : ("m" ++ n).data = 'm' :: n.data := String.data_append "m" n
  have hs : stripTrailingNewline ("m" ++ n).data = ("m" ++ n).data := by
    apply stripTrailingNewline_eq_self
    intro c hc
    rcases List.mem_cons.mp (hdata ▸ List.mem_of_getLast?_eq_some hc) with hm | hmem
    · subst hm; decide
    · exact isDig_ne_newline ((List.all_eq_true.mp hdig) c hmem)
  rw [hdata] at hs
  simp only [matchBase, hdata, hs]
  rw [if_neg (by simpa [List.isEmpty_iff] using hne), if_pos hdig]

theorem matchBase_some {k n : String} (ht : pyStrip k = k) (h : matchBase k = some n) :
    k = "m" ++ n ∧ n.data ≠ [] ∧ n.data.all isDig = true := by
  have hs : stripTrailingNewline k.data = k.data := by
    apply stripTrailingNewline_eq_self
    intro c hc hcn
    have hsp := pyStrip_fix_last ht hc
    rw [hcn] at hsp
    exact absurd hsp (by decide)
  rw [matchBase, hs] at h
  split at h
  next rest hk =>
    split at h
    next => exact Option.noConfusion h
    next hemp =>
      split at h
      next hdig =>
        injection h with h
        subst h
        exact ⟨String.ext hk, by simpa [List.isEmpty_iff] using hemp, hdig⟩
      next => exact Option.noConfusion h
  next => exact Option.noConfusion h

theorem label_inj {a b : String} (h : "M" ++ a = "M" ++ b) : a = b := by
  have hd := congrArg String.data h
  rw [String.data_append, String.data_append] at hd
  exact String.ext (List.append_cancel_left hd)

theorem dictLookup_some_mem {m : Dict} {k : String} {v : Int}
    (h : dictLookup m k = some v) : k ∈ dictKeys m := by
  unfold dictLookup at h
  cases hf : m.find? (fun p => p.1 == k) with
  | none => rw [hf] at h; exact Option.noConfusion h
  | some p =>
    have hp := List.find?_some hf
    rw [beq_iff_eq] at hp
    exact hp ▸ List.mem_map_of_mem Prod.fst (List.mem_of_find?_eq_some hf)

theorem candidateOf_label {m : Dict} {k : String} {e : MilestoneSet}
    (h : candidateOf m k = some e) :
    ∃ n, matchBase k = some n ∧ e.label = "M" ++ n := by
  simp only [candidateOf] at h
  cases hmb : matchBase k with
  | none => simp only [hmb] at h; exact Option.noConfusion h
  | some n =>
    simp only [hmb] at h
    refine ⟨n, rfl, ?_⟩
    cases h1 : dictLookup m ("m" ++ n) with
    | none => simp only [h1] at h; exact Option.noConfusion h
    | some t =>
      cases h2 : dictLookup m ("m" ++ n ++ " date") with
      | none => simp only [h1, h2] at h; exact Option.noConfusion h
      | some dk =>
        cases h3 : dictLookup m ("m" ++ n ++ " status") with
        | none => simp only [h1, h2, h3] at h; exact Option.noConfusion h
        | some sk =>
          simp only [h1, h2, h3] at h
          injection h with h
          rw [← h]

/-- C3: over any normalized-name mapping (trimmed keys, unique as in a Python
dict), detection emits an entry labelled `M<n>` exactly for those names
`m<n>` (anchored `m` + digits) whose companions `m<n> date` and `m<n> status`
both exist, carrying the three column ids; labels are emitted at most once,
and the result is sorted by `n` ascending numerically. -/
theorem c3_detect_schema (m : Dict) (hnd : (dictKeys m).Nodup)
    (ht : ∀ k ∈ dictKeys m, pyStrip k = k) :
    (∀ n t d s, (MilestoneSet.mk ("M" ++ n) t d s ∈ detect_milestone_sets m) ↔
      (n.data ≠ [] ∧ n.data.all isDig = true ∧
        dictLookup m ("m" ++ n) = some t ∧
        dictLookup m ("m" ++ n ++ " date") = some d ∧
        dictLookup m ("m" ++ n ++ " status") = some s)) ∧
    ((detect_milestone_sets m).map MilestoneSet.label).Nodup ∧
    (detect_milestone_sets m).Pairwise msLE := by
  refine ⟨?_, ?_, List.sorted_insertionSort msLE _⟩
  · intro n t d s
    constructor
    · intro hmem
      obtain ⟨k, hk, hf⟩ := List.mem_filterMap.mp ((List.mem_insertionSort _).mp hmem)
      simp only [candidateOf] at hf
      cases hmb : matchBase k with
      | none => simp only [hmb] at hf; exact Option.noConfusion hf
      | some n' =>
        simp only [hmb] at hf
        cases h1 : dictLookup m ("m" ++ n') with
        | none => simp only [h1] at hf; exact Option.noConfusion hf
        | some t' =>
          cases h2 : dictLookup m ("m" ++ n' ++ " date") with
          | none => simp only [h1, h2] at hf; exact Option.noConfusion hf
          | some dk' =>
            cases h3 : dictLookup m ("m" ++ n' ++ " status") with
            | none => simp only [h1, h2, h3] at hf; exact Option.noConfusion hf
            | some sk' =>
              simp only [h1, h2, h3] at hf
              injection hf with hf
              rw [MilestoneSet.mk.injEq] at hf
              obtain ⟨hl, htid, hdid, hsid⟩ := hf
              have hn := label_inj hl
              subst hn
              obtain ⟨-, hne, hdig⟩ := matchBase_some (ht k hk) hmb
              exact ⟨hne, hdig, htid ▸ h1, hdid ▸ h2, hsid ▸ h3⟩
    · rintro ⟨hne, hdig, hlt, hld, hls⟩
      refine (List.mem_insertionSort _).mpr
        (List.mem_filterMap.mpr ⟨"m" ++ n, dictLookup_some_mem hlt, ?_⟩)
      simp only [candidateOf, matchBase_append n hne hdig, hlt, hld, hls]
  · have hperm : List.Perm ((detect_milestone_sets m).map MilestoneSet.label)
        (((dictKeys m).filterMap (candidateOf m)).map MilestoneSet.label) :=
      (List.perm_insertionSort msLE _).map _
    refine hperm.nodup_iff.mpr ?_
    rw [List.map_filterMap]
    refine (List.pairwise_filterMap).mpr (hnd.imp_of_mem ?_)
    intro a b ha hb hab x hx y hy hxy
    cases hca : candidateOf m a with
    | none => rw [hca] at hx; exact Option.noConfusion hx
    | some ea =>
      cases hcb : candidateOf m b with
      | none => rw [hcb] at hy; exact Option.noConfusion hy
      | some eb =>
        rw [hca] at hx
        rw [hcb] at hy
        simp only [Option.map_some', Option.mem_some_iff] at hx hy
        obtain ⟨na, hma, hla⟩ := candidateOf_label hca
        obtain ⟨nb, hmb, hlb⟩ := candidateOf_label hcb
        rw [← hx, ← hy, hla, hlb] at hxy
        have hnab := label_inj hxy
        subst hnab
        have hka := (matchBase_some (ht a ha) hma).1
        have hkb := (matchBase_some (ht b hb) hmb).1
        exact hab (hka.trans hkb.symm)

/-- Witness for C3 on `dictB`: `m2` is accepted, the partial `m5` triple is
rejected, and the schema order is `M1, M2, M10` (numeric, so `M2` precedes
`M10`). -/
theorem c3_detect_schema_witness :
    (dictKeys dictB).Nodup ∧
    (MilestoneSet.mk ("M" ++ "2") 2 3 4 ∈ detect_milestone_sets dictB) ∧
    decide (MilestoneSet.mk ("M" ++ "5") 11 12 0 ∈ detect_milestone_sets dictB) = false ∧
    detect_milestone_sets dictB =
      [⟨"M1", 8, 9, 10⟩, ⟨"M2", 2, 3, 4⟩, ⟨"M10", 5, 6, 7⟩] :=
  ⟨by decide,
    ((c3_detect_schema dictB (by decide) (by decide)).1 "2" 2 3 4).mpr (by decide),
    decide_eq_false (fun hmem =>
      absurd (((c3_detect_schema dictB (by decide) (by decide)).1 "5" 11 12 0).mp
        hmem).2.2.2.2 (by decide)),
    by decide⟩

theorem spec_hit_line_eq_hit_line : spec_hit_line = hit_line := rfl

theorem foldl_add_length (l : List ProjectResult) (init : Nat) :
    l.foldl (fun acc r => acc + r.hits.length) init =
      init + (l.map (fun r => r.hits.length)).sum := by
  induction l generalizing init with
  | nil => simp
  | cons r t ih => simp [ih, Nat.add_assoc]

theorem foldl_blocks (l : List ProjectResult) (init : List String) :
    l.foldl (fun acc r => acc ++ (("• " ++ pyStr r.project) :: r.hits.map hit_line) ++ [""])
        init = init ++ spec_blocks l := by
  induction l generalizing init with
  | nil => simp [spec_blocks]
  | cons r t ih =>
    rw [List.foldl_cons, ih, spec_blocks, spec_hit_line_eq_hit_line]
    simp

theorem strip_eq_rstrip_cons {c : Char} {t : List Char} (hc : pyIsSpace c = false) :
    pyStripL (c :: t) = pyRstripL (c :: t) := by
  simp [pyStripL, List.dropWhile_cons, hc]

theorem joinLines_cons_cons (a b : String) (l : List String) :
    joinLines (a :: b :: l) = a ++ "\n" ++ joinLines (b :: l) := rfl

theorem strip_eq_rstrip_head {l : List Char}
    (h : ∀ c, l.head? = some c → pyIsSpace c = false) :
    pyStripL l = pyRstripL l := by
  cases l with
  | nil => rfl
  | cons c t => exact strip_eq_rstrip_cons (h c rfl)

theorem head_data_join (total cnt : Nat) (blocks : List String) :
    ((joinLines (["Past-due milestones (not completed): " ++ toString total,
      "Projects impacted: " ++ toString cnt, ""] ++ blocks)).data).head? = some 'P' := by
  rw [show (["Past-due milestones (not completed): " ++ toString total,
      "Projects impacted: " ++ toString cnt, ""] ++ blocks) =
    ("Past-due milestones (not completed): " ++ toString total) ::
      ("Projects impacted: " ++ toString cnt) :: "" :: blocks from rfl]
  rw [joinLines_cons_cons]
  rw [String.data_append, String.data_append, String.data_append]
  rw [show ("Past-due milestones (not completed): " : String).data =
    'P' :: ("ast-due milestones (not completed): " : String).data from rfl]
  simp

/-- C6: `format_summary` is a deterministic function equal to the format the
spec prescribes — the celebratory literal on the empty list, and otherwise
the two header lines, a blank line, per-project bullet-and-hit-line blocks
each followed by a blank line, with trailing whitespace stripped.  (The code
strips both ends; the first character is always the `P` of the header, so
this coincides with stripping trailing whitespace only.) -/
theorem c6_format_summary :
    (∀ results, format_summary results = formatSummarySpec results) ∧
    (∀ a b : List ProjectResult, a = b → format_summary a = format_summary b) := by
  refine ⟨?_, fun a b h => by rw [h]⟩
  intro results
  cases results with
  | nil => rfl
  | cons r rest =>
    simp only [format_summary, formatSummarySpec, List.isEmpty_cons, Bool.false_eq_true,
      if_false]
    rw [if_neg (List.cons_ne_nil r rest)]
    rw [foldl_add_length, foldl_blocks]
    simp only [Nat.zero_add, List.nil_append]
    congr 1

/-- Witness for C6 at the §8 scenario result. -/
theorem c6_format_summary_witness :
    format_summary [resA] = formatSummarySpec [resA] ∧
    format_summary [resA] = format_summary [resA] :=
  ⟨c6_format_summary.1 [resA], c6_format_summary.2 [resA] [resA] rfl⟩
